import Mathlib

/-!
Shallow embedding of `src/bennet/config/config.py` (class `Config`), including
the in-memory semantics of the Python standard library `configparser.ConfigParser`
that the class wraps (option-name lowercasing via the default `optionxform`,
default-section fallback, and `BasicInterpolation` of `%`-values).  Strings are
modelled as Lean `String`; `str.lower` is modelled on its ASCII fragment
(`Char.toLower`).  The filesystem boundary of `load`/`save` is modelled by
explicit outcome parameters, since file I/O has no shallow embedding.
-/

/-- ASCII model of Python `str.lower`, which `configparser` uses as the default
`optionxform` applied to every option name on read and write. -/
def pyLower (s : String) : String :=
  String.mk (s.data.map Char.toLower)

/-- An ordered association list modelling a Python `dict` from option/section
names to values: insertion order is kept, assignment to an existing key keeps
its position. -/
abbrev Assoc := List (String × String)

/-- Lookup in an association list (first binding wins, as in a `dict` with
unique keys). -/
def alookup {α : Type} : List (String × α) → String → Option α
  | [], _ => none
  | (k, v) :: rest, key => if k = key then some v else alookup rest key

/-- Model of `dict` assignment `d[k] = v`: replace in place when the key is
present, else append. -/
def ainsert {α : Type} : List (String × α) → String → α → List (String × α)
  | [], key, v => [(key, v)]
  | (k, w) :: rest, key, v =>
      if k = key then (k, v) :: rest else (k, w) :: ainsert rest key v

/-- Model of `del d[k]`. -/
def aerase {α : Type} : List (String × α) → String → List (String × α)
  | [], _ => []
  | (k, w) :: rest, key => if k = key then rest else (k, w) :: aerase rest key

/-- The keys of an association list in order. -/
def akeys {α : Type} (m : List (String × α)) : List String :=
  m.map Prod.fst

/-- Python exceptions that the modelled code can raise. -/
inductive PyExc where
  | noSectionErr
  | noOptionErr
  | valueErr
  | typeErr
  | interpSynErr
  | interpMissingErr
  | interpDepthErr
  | missingHeaderErr
  | parsingErr
  | osErr
  | attributeErr
  deriving DecidableEq, Repr

/-- Events fired on the `Observable` by `trigger_event`; the observer machinery
itself lives in `bennet.observer` outside this repository's sources, so we only
record the trace of triggered events. -/
inductive Event where
  | settingChanged (sec key value : String)
  | settingRemoved (sec : String) (key : Option String)
  deriving DecidableEq, Repr

/-- Python return value of a mutator: `self` (from `return self`) or `None`
(falling off the end of the function body). -/
inductive PyRet where
  | selfRef
  | pyNone
  deriving DecidableEq, Repr

/-- Model of `configparser._KEYCRE` (`%\(([^)]+)\)s`) name scanning: the
longest prefix of characters other than the closing parenthesis, together with
the remainder. -/
def spanNotParen : List Char → (List Char × List Char)
  | [] => ([], [])
  | c :: cs =>
      if c = ')' then ([], c :: cs)
      else
        let p := spanNotParen cs
        (c :: p.1, p.2)


/-- Model of `_KEYCRE.match` at the start of a string: matches
`%` `(` name `)` `s` with a nonempty name containing no `)`, returning the name
and the unconsumed remainder. -/
def keycre : List Char → Option (String × List Char)
  | '%' :: '(' :: rest =>
      match h : spanNotParen rest with
      | ([], _) => none
      | (_ :: _, []) => none
      | (nm :: nms, close :: tl) =>
          if close = ')' then
            match tl with
            | 's' :: after => some (String.mk (nm :: nms), after)
            | _ => none
          else none
  | _ => none

/-- Model of `value.replace('%%', '')` (left-to-right, non-overlapping). -/
def removeDoublePercent : List Char → List Char
  | '%' :: '%' :: rest => removeDoublePercent rest
  | c :: rest => c :: removeDoublePercent rest
  | [] => []

/-- Worker for `keycreSub`, structurally recursive on a step budget.  Every
recursive call strictly shortens the list, so a budget equal to the initial
length is never exhausted; the budget-zero branch is unreachable. -/
def keycreSubF : Nat → List Char → List Char
  | 0, l => l
  | _ + 1, [] => []
  | f + 1, c :: cs =>
      match keycre (c :: cs) with
      | some (_, after) => keycreSubF f after
      | none => c :: keycreSubF f cs

/-- Model of `_KEYCRE.sub('', value)`: delete every non-overlapping match of
the interpolation-reference pattern, scanning left to right. -/
def keycreSub (l : List Char) : List Char :=
  keycreSubF l.length l

/-- Model of `BasicInterpolation.before_set`: the value is rejected (with
`ValueError`) when, after removing escaped percents and well-formed references,
a stray `%` remains. -/
def beforeSetOk (value : String) : Bool :=
  ¬ (keycreSub (removeDoublePercent value.data)).contains '%'

/-- Model of `BasicInterpolation._interpolate_some`, structurally recursive on
a step budget `steps` (an artifact: every recursive call consumes one step, and
callers supply a budget large enough that the budget-zero branch is
unreachable).  The second argument is the semantic depth budget encoding the
`MAX_INTERPOLATION_DEPTH` check: Python enters with `depth = 1` and raises once
`depth > 10`, which corresponds to entering with depth budget `10` and raising
at `0`; recursing into a referenced value decrements it. -/
def interpSomeF (m : Assoc) : Nat → Nat → List Char → Except PyExc (List Char)
  | 0, _, _ => .error .interpDepthErr
  | _ + 1, 0, _ => .error .interpDepthErr
  | _ + 1, _ + 1, [] => .ok []
  | s + 1, d + 1, c :: cs =>
      if c = '%' then
        match cs with
        | [] => .error .interpSynErr
        | '%' :: rest => (interpSomeF m s (d + 1) rest).map (fun t => '%' :: t)
        | '(' :: rest2 =>
            match keycre (c :: '(' :: rest2) with
            | none => .error .interpSynErr
            | some (nm, after) =>
                match alookup m (pyLower nm) with
                | none => .error .interpMissingErr
                | some v =>
                    if v.data.contains '%' then
                      match interpSomeF m s d v.data with
                      | .error e => .error e
                      | .ok t =>
                          (interpSomeF m s (d + 1) after).map (fun t2 => t ++ t2)
                    else
                      (interpSomeF m s (d + 1) after).map (fun t2 => v.data ++ t2)
        | _ :: _ => .error .interpSynErr
      else
        (interpSomeF m s (d + 1) cs).map (fun t => c :: t)

/-- A step budget that the interpolation recursion can never exhaust: at most
eleven nested levels each scan strings drawn from the input or the stored
values, so the total number of calls is far below this bound. -/
def interpFuel (m : Assoc) (l : List Char) : Nat :=
  (l.length + (m.map fun p => p.2.length).sum + 2) ^ 12

/-- Model of `BasicInterpolation.before_get` as invoked by
`ConfigParser.get`: interpolate the raw value against the lookup map. -/
def beforeGet (m : Assoc) (value : String) : Except PyExc String :=
  (interpSomeF m (interpFuel m value.data) 10 value.data).map String.mk

instance {e a : Type} [DecidableEq e] [DecidableEq a] : DecidableEq (Except e a) :=
  fun x y =>
  match x, y with
  | .ok u, .ok v => if h : u = v then .isTrue (by rw [h]) else .isFalse (by simp [h])
  | .error u, .error v => if h : u = v then .isTrue (by rw [h]) else .isFalse (by simp [h])
  | .ok _, .error _ => .isFalse (by simp)
  | .error _, .ok _ => .isFalse (by simp)

/-- Value of `configparser.DEFAULTSECT`. -/
def DEFAULTSECT : String := "DEFAULT"

/-- In-memory state of a `ConfigParser`: the default section's options
(`self._defaults`) and the named sections in insertion order
(`self._sections`), each an ordered option map.  Option keys are stored after
`optionxform` (lowercasing); section names are stored verbatim. -/
structure ConfigState where
  defaults : Assoc
  sections : List (String × Assoc)
  deriving DecidableEq, Repr

/-- The `ConfigParser()` freshly constructed in `Config.__init__`. -/
def emptyState : ConfigState :=
  { defaults := [], sections := [] }

/-- Model of `ConfigParser.has_section`: membership in `self._sections` (the
default section never lives there). -/
def cpHasSection (st : ConfigState) (sec : String) : Bool :=
  (alookup st.sections sec).isSome

/-- Model of `ConfigParser.add_section` as called by `Config.set` (the caller
guarantees the section is absent and is not the default sentinel). -/
def cpAddSection (st : ConfigState) (sec : String) : ConfigState :=
  { st with sections := st.sections ++ [(sec, [])] }

/-- Model of `ConfigParser.set`: `before_set` validation of a nonempty value,
then assignment into `self._defaults` when the section is falsy or the default
sentinel, else into the named section (raising `NoSectionError` if absent),
under the `optionxform`-lowercased key. -/
def cpSet (st : ConfigState) (sec key value : String) :
    Except PyExc ConfigState :=
  if value ≠ "" ∧ ¬ beforeSetOk value then .error .valueErr
  else if sec = "" ∨ sec = DEFAULTSECT then
    .ok { st with defaults := ainsert st.defaults (pyLower key) value }
  else
    match alookup st.sections sec with
    | none => .error .noSectionErr
    | some m => .ok { st with sections := ainsert st.sections sec (ainsert m (pyLower key) value) }

/-- Model of `ConfigParser._unify_values`: the lookup chain of the section's
options over the defaults, raising `NoSectionError` for a missing non-default
section. -/
def unify (st : ConfigState) (sec : String) : Except PyExc Assoc :=
  match alookup st.sections sec with
  | some m => .ok (m ++ st.defaults)
  | none => if sec = DEFAULTSECT then .ok st.defaults else .error .noSectionErr

/-- Model of `ConfigParser.get(section, option)` (no fallback, raw=False):
chain lookup of the lowercased option, then `before_get` interpolation. -/
def cpGet (st : ConfigState) (sec key : String) : Except PyExc String :=
  match unify st sec with
  | .error e => .error e
  | .ok chain =>
      match alookup chain (pyLower key) with
      | none => .error .noOptionErr
      | some v => beforeGet chain v

/-- Model of `ConfigParser.has_option`: for a falsy or default section, look in
the defaults; otherwise require the section to exist (else `NoSectionError`)
and look in the section or the defaults. -/
def cpHasOption (st : ConfigState) (sec key : String) : Except PyExc Bool :=
  if sec = "" ∨ sec = DEFAULTSECT then
    .ok (alookup st.defaults (pyLower key)).isSome
  else
    match alookup st.sections sec with
    | none => .error .noSectionErr
    | some m =>
        .ok ((alookup m (pyLower key)).isSome || (alookup st.defaults (pyLower key)).isSome)

/-- Model of `ConfigParser.remove_option`: deletes the lowercased key from the
chosen dict only (defaults for a falsy/default section, else the named
section, raising `NoSectionError` if absent); returns whether it was there. -/
def cpRemoveOption (st : ConfigState) (sec key : String) :
    Except PyExc (Bool × ConfigState) :=
  if sec = "" ∨ sec = DEFAULTSECT then
    let existed := (alookup st.defaults (pyLower key)).isSome
    .ok (existed, { st with defaults := aerase st.defaults (pyLower key) })
  else
    match alookup st.sections sec with
    | none => .error .noSectionErr
    | some m =>
        let existed := (alookup m (pyLower key)).isSome
        .ok (existed, { st with sections := ainsert st.sections sec (aerase m (pyLower key)) })

/-- Model of `ConfigParser.remove_section`. -/
def cpRemoveSection (st : ConfigState) (sec : String) : ConfigState :=
  { st with sections := aerase st.sections sec }

/-- Model of `ConfigParser.options(section)`: a copy of the section's option
dict updated with the defaults, i.e. the section's keys in order followed by
the default keys not already present. -/
def cpOptions (st : ConfigState) (sec : String) : Except PyExc (List String) :=
  match alookup st.sections sec with
  | none => .error .noSectionErr
  | some m =>
      .ok (akeys m ++ (akeys st.defaults).filter (fun k => alookup m k = none))

/-- Result of a `Config` mutator: the new parser state, the events fired on
the observable, and the Python return value. -/
structure MutResult where
  state : ConfigState
  events : List Event
  ret : PyRet
  deriving DecidableEq, Repr

namespace Config

/-- Model of `Config.get`: `self.config.get(section, key)` with
`NoSectionError`/`NoOptionError` caught and resolved to the fallback (`none`
models a `fallback=None`); other exceptions (interpolation) propagate. -/
def get (st : ConfigState) (sec key : String) (fallback : Option String) :
    Except PyExc (Option String) :=
  match cpGet st sec key with
  | .ok v => .ok (some v)
  | .error .noSectionErr => .ok fallback
  | .error .noOptionErr => .ok fallback
  | .error e => .error e

/-- Model of `Config.set`: auto-create a missing non-default section, write the
option, trigger `"setting_changed"`, and `return self`. -/
def set (st : ConfigState) (sec key value : String) : Except PyExc MutResult :=
  match cpSet
      (if ¬ cpHasSection st sec ∧ sec ≠ DEFAULTSECT then cpAddSection st sec else st)
      sec key value with
  | .error e => .error e
  | .ok st2 =>
      .ok { state := st2, events := [Event.settingChanged sec key value],
            ret := PyRet.selfRef }

/-- Model of `Config.get_default`: `self.get(DEFAULTSECT, key, fallback)`. -/
def get_default (st : ConfigState) (key : String) (fallback : Option String) :
    Except PyExc (Option String) :=
  get st DEFAULTSECT key fallback

/-- Model of `Config.set_default`: calls `self.set(DEFAULTSECT, key, value)`
and falls off the end of the function body, so it returns `None`. -/
def set_default (st : ConfigState) (key value : String) : Except PyExc MutResult :=
  match set st DEFAULTSECT key value with
  | .error e => .error e
  | .ok r => .ok { r with ret := PyRet.pyNone }

/-- Body of the `try` block of `Config.remove`: the result flag, the state
after the call, and the events fired; exceptions escape to the handlers. -/
def removeInner (st : ConfigState) (sec : String) (key : Option String) :
    Except PyExc (Bool × ConfigState × List Event) :=
  match key with
  | none =>
      if cpHasSection st sec then
        .ok (true, cpRemoveSection st sec, [Event.settingRemoved sec none])
      else
        .ok (false, st, [])
  | some k =>
      match cpHasOption st sec k with
      | .error e => .error e
      | .ok true =>
          match cpRemoveOption st sec k with
          | .error e => .error e
          | .ok (_, st2) => .ok (true, st2, [Event.settingRemoved sec (some k)])
      | .ok false => .ok (false, st, [])

/-- Model of `Config.remove`: the `try` body with
`except configparser.ParsingError` and `except Exception` both resolving to a
`False` return (every modelled exception is an `Exception`). -/
def remove (st : ConfigState) (sec : String) (key : Option String) :
    Except PyExc (Bool × ConfigState × List Event) :=
  match removeInner st sec key with
  | .ok r => .ok r
  | .error _ => .ok (false, st, [])

/-- Outcome of `open(filename)` plus `ConfigParser._read` inside
`ConfigParser.read`, supplied as an explicit parameter: the file may be
unreadable (`OSError` on open), or its text parses to per-section option
updates, or parsing fails.  The filesystem and the INI text grammar live
outside the shallow embedding. -/
inductive ReadOutcome where
  | missing
  | parsed (defaults : Assoc) (secs : List (String × Assoc))
  | parseFail (e : PyExc)
  deriving DecidableEq, Repr

/-- Model of `ConfigParser.read(filename)`: an unreadable file is silently
skipped (`except OSError: continue`), parsed content is merged into the
existing state (incremental-read semantics), and a parse error propagates. -/
def cpRead (st : ConfigState) (f : ReadOutcome) : Except PyExc ConfigState :=
  match f with
  | .missing => .ok st
  | .parsed ds secs =>
      let defaults2 := ds.foldl (fun acc p => ainsert acc p.1 p.2) st.defaults
      let sections2 := secs.foldl
        (fun acc p =>
          let merged := p.2.foldl (fun a q => ainsert a q.1 q.2)
            ((alookup acc p.1).getD [])
          ainsert acc p.1 merged)
        st.sections
      .ok { defaults := defaults2, sections := sections2 }
  | .parseFail e => .error e

/-- Model of `Config.load`: `self.config.read(self.filename)` with
`MissingSectionHeaderError`/`ParsingError` logged and re-raised (re-raising is
the identity on the propagated exception). -/
def load (st : ConfigState) (f : ReadOutcome) : Except PyExc ConfigState :=
  match cpRead st f with
  | .ok st2 => .ok st2
  | .error e => .error e

/-- Outcome of `open(filename, 'w')` plus `ConfigParser.write`, supplied as an
explicit parameter (the filesystem lives outside the shallow embedding). -/
inductive WriteOutcome where
  | success
  | failure (e : PyExc)
  deriving DecidableEq, Repr

/-- Model of `Config.save`: serialize the store; any exception is logged and
re-raised (`except Exception: ...; raise`). -/
def save (_ : ConfigState) (w : WriteOutcome) : Except PyExc Unit :=
  match w with
  | .success => .ok ()
  | .failure e => .error e

/-- The `observable` constructor argument: `None`, a genuine `Observable`
instance, or any other object. -/
inductive ObsArg where
  | obsNone
  | obsInstance
  | invalid
  deriving DecidableEq, Repr

/-- Model of `Config.__init__`: the `isinstance` guard raises `TypeError`
first; otherwise the identity fields are assigned, a fresh empty parser is
created, and `self.load()` runs on the given file outcome. -/
def init (obs : ObsArg) (f : ReadOutcome) : Except PyExc ConfigState :=
  match obs with
  | .invalid => .error .typeErr
  | _ => load emptyState f

/-- The per-section comprehension of `Config.to_dict`:
`{key: self.config.get(isection, key) for key in self.config.options(isection)}`,
sequencing the possibly-raising `get` calls left to right. -/
def snapKeys (st : ConfigState) (sec : String) : List String → Except PyExc Assoc
  | [] => .ok []
  | k :: ks =>
      match cpGet st sec k with
      | .error e => .error e
      | .ok v =>
          match snapKeys st sec ks with
          | .error e => .error e
          | .ok rest => .ok ((k, v) :: rest)

/-- The loop of `Config.to_dict` over `self.config.sections()`, building
`config_data` by dict update. -/
def toDictLoop (st : ConfigState) :
    List (String × Assoc) → List (String × Assoc) → Except PyExc (List (String × Assoc))
  | acc, [] => .ok acc
  | acc, (sec, m) :: rest =>
      match cpOptions st sec with
      | .error e => .error e
      | .ok ks =>
          match snapKeys st sec ks with
          | .error e => .error e
          | .ok snap => toDictLoop st (ainsert acc sec snap) rest

/-- Result of `Config.to_dict`: the full mapping, or (with a section argument)
that section's mapping or `None`. -/
inductive ToDictRet where
  | full (data : List (String × Assoc))
  | part (data : Option Assoc)
  deriving DecidableEq, Repr

/-- Model of `Config.to_dict(section=None)`: one entry per named section (the
default section is not a top-level key), each mapping every key of
`options(section)` to `self.config.get`'s value; with a section argument, that
entry alone via `dict.get`. -/
def toDict (st : ConfigState) (sec : Option String) : Except PyExc ToDictRet :=
  match toDictLoop st [] st.sections with
  | .error e => .error e
  | .ok data =>
      match sec with
      | none => .ok (ToDictRet.full data)
      | some s => .ok (ToDictRet.part (alookup data s))

/-- Model of the attribute-name split `name.split('_', 1)` followed by the
two-variable unpacking: `none` models the `ValueError` the unpacking raises
when the name has no separator. -/
def splitAttr (name : String) : Option (String × String) :=
  match name.data.findIdx? (fun c => c = '_') with
  | none => none
  | some i =>
      some (String.mk (name.data.take i), String.mk (name.data.drop (i + 1)))

/-- Model of `Config.__getattr__`: the split-and-unpack happens before the
`try`, so a separator-free name raises `ValueError`; otherwise
`self.get(section, key)` runs under handlers converting `ValueError` and
`NoOptionError` to `AttributeError` (both handlers are unreachable from
`Config.get`). -/
def getattrDyn (st : ConfigState) (name : String) : Except PyExc (Option String) :=
  match splitAttr name with
  | none => .error .valueErr
  | some (sec, key) =>
      match get st sec key none with
      | .error .valueErr => .error .attributeErr
      | .error .noOptionErr => .error .attributeErr
      | r => r

/-- Result of `Config.__setattr__`: either a normal object-attribute
assignment (`super().__setattr__`) or a routed `self.set` call. -/
inductive SetAttrRet where
  | identityAssign (name : String)
  | viaSet (r : Except PyExc MutResult)
  deriving DecidableEq, Repr

/-- Model of `Config.__setattr__`: the three identity fields assign normally;
otherwise split-and-set inside a `try` whose `except ValueError` falls back to
normal assignment (so both a separator-free name and a `before_set` rejection
fall through). -/
def setattrDyn (st : ConfigState) (name value : String) : SetAttrRet :=
  if name = "filename" ∨ name = "config" ∨ name = "observable" then
    .identityAssign name
  else
    match splitAttr name with
    | none => .identityAssign name
    | some (sec, key) =>
        match set st sec key value with
        | .error .valueErr => .identityAssign name
        | r => .viaSet r

end Config

/-- A value free of percent signs, hence inert under interpolation. -/
def noPercentStr (v : String) : Bool :=
  ¬ v.data.contains '%'

/-- Invariant of every store reachable through the `Config` operations: the
default sentinel never appears as a stored section, and a section with an
empty name (creatable only by `set("")`, whose write is diverted to the
defaults) is always empty. -/
def wfBase (st : ConfigState) : Prop :=
  alookup st.sections DEFAULTSECT = none ∧
  (alookup st.sections "" = none ∨ alookup st.sections "" = some [])

instance (st : ConfigState) : Decidable (wfBase st) := by
  unfold wfBase
  infer_instance

/-- Well-formedness of a store as produced by the parser and the mutators:
`wfBase`, unique section names, unique lowercased option keys, and values that
interpolation leaves unchanged (no percent character). -/
def wfStore (st : ConfigState) : Prop :=
  wfBase st ∧
  (akeys st.sections).Nodup ∧
  (akeys st.defaults).Nodup ∧
  (∀ p ∈ st.defaults, pyLower p.1 = p.1 ∧ noPercentStr p.2 = true) ∧
  (∀ q ∈ st.sections, (akeys q.2).Nodup ∧
    ∀ p ∈ q.2, pyLower p.1 = p.1 ∧ noPercentStr p.2 = true)

instance (st : ConfigState) : Decidable (wfStore st) := by
  unfold wfStore
  infer_instance

theorem spanNotParen_len (l : List Char) :
    (spanNotParen l).1.length + (spanNotParen l).2.length = l.length := by
  induction l with
  | nil => simp [spanNotParen]
  | cons c cs ih =>
      by_cases h : c = ')'
      · simp [spanNotParen, h]
      · simp only [spanNotParen, if_neg h, List.length_cons]
        omega

theorem keycre_after_len {l : List Char} {nm : String} {after : List Char}
    (h : keycre l = some (nm, after)) : after.length + 5 ≤ l.length := by
  match l with
  | [] => simp [keycre] at h
  | [c] => simp [keycre] at h
  | c :: d :: rest =>
      by_cases hc : c = '%' ∧ d = '('
      · obtain ⟨hc1, hc2⟩ := hc
        subst hc1; subst hc2
        simp only [keycre] at h
        have hlen := spanNotParen_len rest
        split at h
        · exact absurd h (by simp)
        · exact absurd h (by simp)
        · next nm0 nms close tl heq =>
            rw [heq] at hlen
            split at h
            · split at h
              · next after0 =>
                  simp only [Option.some.injEq, Prod.mk.injEq] at h
                  obtain ⟨-, h2⟩ := h
                  subst h2
                  simp only [List.length_cons] at hlen ⊢
                  omega
              · exact absurd h (by simp)
            · exact absurd h (by simp)
      · have : keycre (c :: d :: rest) = none := by
          simp only [keycre]
          split
          · next heq =>
              exfalso
              simp only [List.cons.injEq] at heq
              exact hc ⟨heq.1, heq.2.1⟩
          · rfl
        rw [this] at h
        exact absurd h (by simp)

theorem alookup_append_some {α : Type} {l1 : List (String × α)}
    (l2 : List (String × α)) (k : String) {v : α} (h : alookup l1 k = some v) :
    alookup (l1 ++ l2) k = some v := by
  induction l1 with
  | nil => simp [alookup] at h
  | cons p rest ih =>
      obtain ⟨pk, pv⟩ := p
      simp only [alookup, List.cons_append] at h ⊢
      by_cases hk : pk = k
      · simpa [hk] using h
      · rw [if_neg hk] at h ⊢
        exact ih h

theorem alookup_append_none {α : Type} {l1 : List (String × α)}
    (l2 : List (String × α)) (k : String) (h : alookup l1 k = none) :
    alookup (l1 ++ l2) k = alookup l2 k := by
  induction l1 with
  | nil => simp
  | cons p rest ih =>
      obtain ⟨pk, pv⟩ := p
      simp only [alookup, List.cons_append] at h ⊢
      by_cases hk : pk = k
      · simp [hk] at h
      · rw [if_neg hk] at h ⊢
        exact ih h

theorem alookup_ainsert_self {α : Type} (m : List (String × α)) (k : String) (v : α) :
    alookup (ainsert m k v) k = some v := by
  induction m with
  | nil => simp [ainsert, alookup]
  | cons p rest ih =>
      obtain ⟨pk, pv⟩ := p
      by_cases hk : pk = k
      · simp [ainsert, alookup, hk]
      · simp only [ainsert, if_neg hk, alookup]
        exact ih

theorem alookup_ainsert_ne {α : Type} (m : List (String × α)) {k k' : String} (v : α)
    (h : k' ≠ k) : alookup (ainsert m k v) k' = alookup m k' := by
  have hkk : k ≠ k' := fun he => h he.symm
  induction m with
  | nil => simp [ainsert, alookup, hkk]
  | cons p rest ih =>
      obtain ⟨pk, pv⟩ := p
      by_cases hk : pk = k
      · subst hk
        simp only [ainsert, if_pos rfl, alookup, if_neg hkk]
      · simp only [ainsert, if_neg hk, alookup]
        by_cases hk' : pk = k'
        · rw [if_pos hk', if_pos hk']
        · rw [if_neg hk', if_neg hk']
          exact ih

theorem alookup_mem_nodup {α : Type} {m : List (String × α)}
    (hn : (akeys m).Nodup) {k : String} {v : α} (h : (k, v) ∈ m) :
    alookup m k = some v := by
  induction m with
  | nil => simp at h
  | cons p rest ih =>
      obtain ⟨pk, pv⟩ := p
      simp only [akeys, List.map_cons, List.nodup_cons] at hn
      rcases List.mem_cons.mp h with h1 | h2
      · rw [Prod.mk.injEq] at h1
        obtain ⟨h1a, h1b⟩ := h1
        subst h1a
        subst h1b
        simp [alookup]
      · have hne : pk ≠ k := by
          intro he
          exact hn.1 (he ▸ (List.mem_map.mpr ⟨(k, v), h2, rfl⟩))
        simp only [alookup, if_neg hne]
        exact ih (by simpa [akeys] using hn.2) h2

theorem keycre_none_of_ne {c : Char} (cs : List Char) (h : c ≠ '%') :
    keycre (c :: cs) = none := by
  simp only [keycre]
  split
  · next heq =>
      exfalso
      simp only [List.cons.injEq] at heq
      exact h heq.1
  · rfl

theorem removeDoublePercent_id {l : List Char} (h : l.contains '%' = false) :
    removeDoublePercent l = l := by
  induction l with
  | nil => rfl
  | cons c cs ih =>
      simp only [List.contains_cons, Bool.or_eq_false_iff] at h
      obtain ⟨h1, h2⟩ := h
      have hc : c ≠ '%' := by
        intro he
        subst he
        simp at h1
      have step : removeDoublePercent (c :: cs) = c :: removeDoublePercent cs := by
        cases cs with
        | nil => simp [removeDoublePercent, hc]
        | cons d rest => simp [removeDoublePercent, hc]
      rw [step, ih h2]

theorem keycreSubF_id {l : List Char} (h : l.contains '%' = false) :
    ∀ f, keycreSubF f l = l := by
  induction l with
  | nil => intro f; cases f <;> rfl
  | cons c cs ih =>
      intro f
      simp only [List.contains_cons, Bool.or_eq_false_iff] at h
      obtain ⟨h1, h2⟩ := h
      have hc : c ≠ '%' := by
        intro he
        subst he
        simp at h1
      cases f with
      | zero => rfl
      | succ f' =>
          simp only [keycreSubF, keycre_none_of_ne cs hc]
          rw [ih h2]

theorem beforeSetOk_of_noPercent {v : String} (h : noPercentStr v = true) :
    beforeSetOk v = true := by
  simp only [noPercentStr, decide_eq_true_eq] at h
  have h' : v.data.contains '%' = false := by
    cases hc : v.data.contains '%'
    · rfl
    · exact absurd hc h
  simp only [beforeSetOk, keycreSub, removeDoublePercent_id h', keycreSubF_id h']
  simpa using h'

theorem interpSomeF_id (m : Assoc) :
    ∀ (s : Nat) (l : List Char) (d : Nat), l.contains '%' = false →
      l.length < s → interpSomeF m s (d + 1) l = .ok l := by
  intro s
  induction s with
  | zero => intro l d _ hl; omega
  | succ s' ih =>
      intro l d hp hl
      cases l with
      | nil => rfl
      | cons c cs =>
          simp only [List.contains_cons, Bool.or_eq_false_iff] at hp
          obtain ⟨h1, h2⟩ := hp
          have hc : c ≠ '%' := by
            intro he
            subst he
            simp at h1
          simp only [interpSomeF, if_neg hc]
          rw [ih cs d h2 (by simp at hl; omega)]
          rfl

theorem lt_interpFuel (m : Assoc) (l : List Char) : l.length < interpFuel m l := by
  have h1 : l.length < l.length + (m.map fun p => p.2.length).sum + 2 := by omega
  have h2 : l.length + (m.map fun p => p.2.length).sum + 2 ≤ interpFuel m l :=
    Nat.le_self_pow (by norm_num) _
  omega

theorem beforeGet_id (m : Assoc) {v : String} (h : noPercentStr v = true) :
    beforeGet m v = .ok v := by
  simp only [noPercentStr, decide_eq_true_eq] at h
  have h' : v.data.contains '%' = false := by
    cases hc : v.data.contains '%'
    · rfl
    · exact absurd hc h
  have h10 : (10 : Nat) = 9 + 1 := rfl
  simp only [beforeGet, h10]
  rw [interpSomeF_id m (interpFuel m v.data) v.data 9 h' (lt_interpFuel m v.data)]
  rfl


theorem cpSet_default (st : ConfigState) {sec : String}
    (hsec : sec = "" ∨ sec = DEFAULTSECT) (k : String) {v : String}
    (hv : noPercentStr v = true) :
    cpSet st sec k v = .ok { st with defaults := ainsert st.defaults (pyLower k) v } := by
  unfold cpSet
  rw [if_neg (by
    intro hcon
    exact hcon.2 (by simp [beforeSetOk_of_noPercent hv]))]
  rw [if_pos hsec]

theorem cpSet_section (st : ConfigState) {sec : String} {m : Assoc}
    (hsec : ¬(sec = "" ∨ sec = DEFAULTSECT)) (hm : alookup st.sections sec = some m)
    (k : String) {v : String} (hv : noPercentStr v = true) :
    cpSet st sec k v =
      .ok { st with sections := ainsert st.sections sec (ainsert m (pyLower k) v) } := by
  unfold cpSet
  rw [if_neg (by
    intro hcon
    exact hcon.2 (by simp [beforeSetOk_of_noPercent hv]))]
  rw [if_neg hsec, hm]

theorem unify_of_lookup {st : ConfigState} {sec : String} {m : Assoc}
    (h : alookup st.sections sec = some m) :
    unify st sec = .ok (m ++ st.defaults) := by
  unfold unify
  rw [h]

theorem unify_default {st : ConfigState}
    (h : alookup st.sections DEFAULTSECT = none) :
    unify st DEFAULTSECT = .ok st.defaults := by
  unfold unify
  rw [h, if_pos rfl]

theorem cpGet_ok_of_chain {st : ConfigState} {sec : String} {chain : Assoc}
    (hu : unify st sec = .ok chain) {k v : String}
    (hl : alookup chain (pyLower k) = some v) (hv : noPercentStr v = true) :
    cpGet st sec k = .ok v := by
  unfold cpGet
  rw [hu]
  dsimp only
  rw [hl]
  dsimp only
  exact beforeGet_id chain hv

theorem config_get_of_cpGet {st : ConfigState} {sec k : String} {v : String}
    (h : cpGet st sec k = .ok v) (fb : Option String) :
    Config.get st sec k fb = .ok (some v) := by
  unfold Config.get
  rw [h]

theorem config_set_of_cpSet {st st2 : ConfigState} {sec k v : String}
    (h : cpSet (if ¬ cpHasSection st sec ∧ sec ≠ DEFAULTSECT then cpAddSection st sec else st)
          sec k v = .ok st2) :
    Config.set st sec k v =
      .ok { state := st2, events := [Event.settingChanged sec k v], ret := PyRet.selfRef } := by
  unfold Config.set
  rw [h]

theorem set_then_get (st : ConfigState) (sec k k' v : String) (fb : Option String)
    (hwf : wfBase st) (hv : noPercentStr v = true) (hk : pyLower k' = pyLower k) :
    ∃ st2, Config.set st sec k v =
        .ok { state := st2, events := [Event.settingChanged sec k v],
              ret := PyRet.selfRef } ∧
      Config.get st2 sec k' fb = .ok (some v) ∧
      (sec ≠ "" ∧ sec ≠ DEFAULTSECT →
        ∃ m2, alookup st2.sections sec = some m2 ∧
          alookup m2 (pyLower k) = some v) := by
  by_cases hdef : sec = DEFAULTSECT
  · subst hdef
    have hguard :
        (if ¬ cpHasSection st DEFAULTSECT = true ∧ DEFAULTSECT ≠ DEFAULTSECT then
          cpAddSection st DEFAULTSECT else st) = st := by
      rw [if_neg]
      intro h
      exact h.2 rfl
    refine ⟨{ st with defaults := ainsert st.defaults (pyLower k) v }, ?_, ?_, ?_⟩
    · exact config_set_of_cpSet (by rw [hguard]; exact cpSet_default st (Or.inr rfl) k hv)
    · have hu : unify { st with defaults := ainsert st.defaults (pyLower k) v }
          DEFAULTSECT = .ok (ainsert st.defaults (pyLower k) v) :=
        unify_default hwf.1
      have hl : alookup (ainsert st.defaults (pyLower k) v) (pyLower k') = some v := by
        rw [hk]
        exact alookup_ainsert_self _ _ _
      exact config_get_of_cpGet (cpGet_ok_of_chain hu hl hv) fb
    · intro hcon
      exact absurd rfl hcon.2
  · by_cases hemp : sec = ""
    · subst hemp
      have hne : ("" : String) ≠ DEFAULTSECT := by decide
      by_cases hhs : cpHasSection st "" = true
      · have hguard :
            (if ¬ cpHasSection st "" = true ∧ ("" : String) ≠ DEFAULTSECT then
              cpAddSection st "" else st) = st := by
          rw [if_neg]
          intro h
          exact h.1 hhs
        have hlk : alookup st.sections "" = some [] := by
          rcases hwf.2 with h0 | h0
          · exfalso
            unfold cpHasSection at hhs
            rw [h0] at hhs
            simp at hhs
          · exact h0
        refine ⟨{ st with defaults := ainsert st.defaults (pyLower k) v }, ?_, ?_, ?_⟩
        · exact config_set_of_cpSet (by rw [hguard]; exact cpSet_default st (Or.inl rfl) k hv)
        · have hu : unify { st with defaults := ainsert st.defaults (pyLower k) v } ""
              = .ok ([] ++ ainsert st.defaults (pyLower k) v) :=
            unify_of_lookup hlk
          have hl : alookup ([] ++ ainsert st.defaults (pyLower k) v) (pyLower k')
              = some v := by
            rw [List.nil_append, hk]
            exact alookup_ainsert_self _ _ _
          exact config_get_of_cpGet (cpGet_ok_of_chain hu hl hv) fb
        · intro hcon
          exact absurd rfl hcon.1
      · have hguard :
            (if ¬ cpHasSection st "" = true ∧ ("" : String) ≠ DEFAULTSECT then
              cpAddSection st "" else st) = cpAddSection st "" := by
          rw [if_pos ⟨hhs, hne⟩]
        have hlknone : alookup st.sections "" = none := by
          rcases hwf.2 with h0 | h0
          · exact h0
          · exfalso
            exact hhs (by unfold cpHasSection; rw [h0]; rfl)
        have hlk1 : alookup (cpAddSection st "").sections "" = some [] := by
          unfold cpAddSection
          rw [alookup_append_none _ _ hlknone]
          simp [alookup]
        refine ⟨{ cpAddSection st "" with
                  defaults := ainsert st.defaults (pyLower k) v }, ?_, ?_, ?_⟩
        · exact config_set_of_cpSet
            (by rw [hguard]; exact cpSet_default (cpAddSection st "") (Or.inl rfl) k hv)
        · have hu : unify { cpAddSection st "" with
                defaults := ainsert st.defaults (pyLower k) v } ""
              = .ok ([] ++ ainsert st.defaults (pyLower k) v) :=
            unify_of_lookup hlk1
          have hl : alookup ([] ++ ainsert st.defaults (pyLower k) v) (pyLower k')
              = some v := by
            rw [List.nil_append, hk]
            exact alookup_ainsert_self _ _ _
          exact config_get_of_cpGet (cpGet_ok_of_chain hu hl hv) fb
        · intro hcon
          exact absurd rfl hcon.1
    · have hsec0 : ¬(sec = "" ∨ sec = DEFAULTSECT) := by
        intro h
        exact h.elim hemp hdef
      by_cases hhs : cpHasSection st sec = true
      · obtain ⟨m, hm⟩ : ∃ m, alookup st.sections sec = some m := by
          unfold cpHasSection at hhs
          cases h : alookup st.sections sec with
          | none => rw [h] at hhs; simp at hhs
          | some m => exact ⟨m, rfl⟩
        have hguard :
            (if ¬ cpHasSection st sec = true ∧ sec ≠ DEFAULTSECT then
              cpAddSection st sec else st) = st := by
          rw [if_neg]
          intro h
          exact h.1 hhs
        refine ⟨{ st with
                  sections := ainsert st.sections sec (ainsert m (pyLower k) v) },
                ?_, ?_, ?_⟩
        · exact config_set_of_cpSet (by rw [hguard]; exact cpSet_section st hsec0 hm k hv)
        · have hu : unify { st with
                sections := ainsert st.sections sec (ainsert m (pyLower k) v) } sec
              = .ok (ainsert m (pyLower k) v ++ st.defaults) :=
            unify_of_lookup (alookup_ainsert_self _ _ _)
          have hl : alookup (ainsert m (pyLower k) v ++ st.defaults) (pyLower k')
              = some v := by
            rw [hk]
            exact alookup_append_some _ _ (alookup_ainsert_self _ _ _)
          exact config_get_of_cpGet (cpGet_ok_of_chain hu hl hv) fb
        · intro _
          exact ⟨ainsert m (pyLower k) v, alookup_ainsert_self _ _ _,
                 alookup_ainsert_self _ _ _⟩
      · have hlknone : alookup st.sections sec = none := by
          unfold cpHasSection at hhs
          cases h : alookup st.sections sec with
          | none => rfl
          | some m => rw [h] at hhs; simp at hhs
        have hguard :
            (if ¬ cpHasSection st sec = true ∧ sec ≠ DEFAULTSECT then
              cpAddSection st sec else st) = cpAddSection st sec := by
          rw [if_pos ⟨hhs, hdef⟩]
        have hlk1 : alookup (cpAddSection st sec).sections sec = some [] := by
          unfold cpAddSection
          rw [alookup_append_none _ _ hlknone]
          simp [alookup]
        refine ⟨{ cpAddSection st sec with
                  sections := ainsert (cpAddSection st sec).sections sec
                    (ainsert [] (pyLower k) v) }, ?_, ?_, ?_⟩
        · exact config_set_of_cpSet
            (by rw [hguard]; exact cpSet_section (cpAddSection st sec) hsec0 hlk1 k hv)
        · have hu : unify { cpAddSection st sec with
                sections := ainsert (cpAddSection st sec).sections sec
                  (ainsert [] (pyLower k) v) } sec
              = .ok (ainsert [] (pyLower k) v ++ st.defaults) :=
            unify_of_lookup (alookup_ainsert_self _ _ _)
          have hl : alookup (ainsert [] (pyLower k) v ++ st.defaults) (pyLower k')
              = some v := by
            rw [hk]
            exact alookup_append_some _ _ (alookup_ainsert_self _ _ _)
          exact config_get_of_cpGet (cpGet_ok_of_chain hu hl hv) fb
        · intro _
          exact ⟨ainsert [] (pyLower k) v, alookup_ainsert_self _ _ _,
                 alookup_ainsert_self _ _ _⟩

theorem ainsert_append_of_none {α : Type} {acc : List (String × α)} {key : String}
    (v : α) (h : alookup acc key = none) :
    ainsert acc key v = acc ++ [(key, v)] := by
  induction acc with
  | nil => rfl
  | cons p rest ih =>
      obtain ⟨pk, pv⟩ := p
      simp only [alookup] at h
      by_cases hk : pk = key
      · rw [if_pos hk] at h
        simp at h
      · rw [if_neg hk] at h
        simp only [ainsert, if_neg hk, List.cons_append, List.cons.injEq, true_and]
        exact ih h

theorem akeys_append {α : Type} (a b : List (String × α)) :
    akeys (a ++ b) = akeys a ++ akeys b := by
  simp [akeys]

theorem akeys_filter {α : Type} (d : List (String × α)) (P : String → Bool) :
    (akeys d).filter P = akeys (d.filter (fun p => P p.1)) := by
  induction d with
  | nil => rfl
  | cons p rest ih =>
      by_cases hp : P p.1
      · simp only [akeys, List.map_cons, List.filter_cons, hp, if_true]
        simpa [akeys] using ih
      · simp only [akeys, List.map_cons, List.filter_cons, hp, if_false, Bool.false_eq_true]
        simpa [akeys] using ih

theorem snapKeys_of_pairs (st : ConfigState) (sec : String) (L : Assoc)
    (hall : ∀ p ∈ L, cpGet st sec p.1 = .ok p.2) :
    Config.snapKeys st sec (akeys L) = .ok L := by
  induction L with
  | nil => rfl
  | cons p rest ih =>
      have hp := hall p (List.mem_cons_self p rest)
      have hrest : ∀ q ∈ rest, cpGet st sec q.1 = .ok q.2 :=
        fun q hq => hall q (List.mem_cons_of_mem p hq)
      simp only [akeys, List.map_cons]
      unfold Config.snapKeys
      rw [hp]
      have := ih hrest
      simp only [akeys] at this
      rw [this]

theorem toDictLoop_eq (st : ConfigState) (f : String × Assoc → Assoc) :
    ∀ (rest acc : List (String × Assoc)),
      (∀ q ∈ rest, alookup acc q.1 = none) →
      (akeys rest).Nodup →
      (∀ q ∈ rest, cpOptions st q.1 = .ok (akeys (f q)) ∧
        Config.snapKeys st q.1 (akeys (f q)) = .ok (f q)) →
      Config.toDictLoop st acc rest = .ok (acc ++ rest.map (fun q => (q.1, f q))) := by
  intro rest
  induction rest with
  | nil =>
      intro acc _ _ _
      simp only [List.map_nil, List.append_nil]
      rfl
  | cons q rest' ih =>
      intro acc hacc hnd hops
      obtain ⟨hopt, hsnap⟩ := hops q (List.mem_cons_self q rest')
      unfold Config.toDictLoop
      rw [hopt]
      dsimp only
      rw [hsnap]
      dsimp only
      have hq0 : alookup acc q.1 = none := hacc q (List.mem_cons_self q rest')
      rw [ainsert_append_of_none (f q) hq0]
      simp only [akeys, List.map_cons, List.nodup_cons] at hnd
      have hacc' : ∀ q' ∈ rest', alookup (acc ++ [(q.1, f q)]) q'.1 = none := by
        intro q' hq'
        rw [alookup_append_none _ _ (hacc q' (List.mem_cons_of_mem q hq'))]
        have hne : q.1 ≠ q'.1 := by
          intro he
          exact hnd.1 (he ▸ List.mem_map.mpr ⟨q', hq', rfl⟩)
        simp [alookup, hne]
      have hnd' : (akeys rest').Nodup := hnd.2
      have hops' : ∀ q' ∈ rest', cpOptions st q'.1 = .ok (akeys (f q')) ∧
          Config.snapKeys st q'.1 (akeys (f q')) = .ok (f q') :=
        fun q' hq' => hops q' (List.mem_cons_of_mem q hq')
      rw [ih (acc ++ [(q.1, f q)]) hacc' hnd' hops']
      simp


theorem cpOptions_of_lookup {st : ConfigState} {sec : String} {m : Assoc}
    (hm : alookup st.sections sec = some m) :
    cpOptions st sec =
      .ok (akeys m ++ (akeys st.defaults).filter (fun k => alookup m k = none)) := by
  unfold cpOptions
  rw [hm]

/-- Claim C2, amended: `to_dict()` returns one entry per named section (the
default section is not a top-level key), but each section's dict does NOT
contain only its directly-set keys: it holds the section's own pairs followed
by every default-section pair whose key the section does not shadow (because
`options()` merges `self._defaults`); stated for well-formed stores, whose
values interpolation leaves unchanged. -/
theorem C2_toDict_merges_defaults (st : ConfigState) (h : wfStore st) :
    Config.toDict st none = .ok (Config.ToDictRet.full
      (st.sections.map (fun q => (q.1, q.2 ++ st.defaults.filter
        (fun p => alookup q.2 p.1 = none))))) := by
  obtain ⟨hbase, hsecnd, hdefnd, hdefok, hsecok⟩ := h
  have hall : ∀ q ∈ st.sections,
      cpOptions st q.1 = .ok (akeys (q.2 ++ st.defaults.filter
        (fun p => alookup q.2 p.1 = none))) ∧
      Config.snapKeys st q.1 (akeys (q.2 ++ st.defaults.filter
        (fun p => alookup q.2 p.1 = none)))
        = .ok (q.2 ++ st.defaults.filter (fun p => alookup q.2 p.1 = none)) := by
    intro q hq
    have hqmem : (q.1, q.2) ∈ st.sections := by simpa using hq
    have hlook : alookup st.sections q.1 = some q.2 := alookup_mem_nodup hsecnd hqmem
    obtain ⟨hqnd, hqok⟩ := hsecok q hq
    have hkeys : akeys (q.2 ++ st.defaults.filter (fun p => alookup q.2 p.1 = none))
        = akeys q.2 ++ (akeys st.defaults).filter (fun k => alookup q.2 k = none) := by
      rw [akeys_append, akeys_filter]
    constructor
    · rw [hkeys]
      exact cpOptions_of_lookup hlook
    · apply snapKeys_of_pairs
      intro p hp
      rcases List.mem_append.mp hp with hp1 | hp2
      · obtain ⟨hlow, hnp⟩ := hqok p hp1
        have hmp : alookup q.2 p.1 = some p.2 :=
          alookup_mem_nodup hqnd (by simpa using hp1)
        have hchain : alookup (q.2 ++ st.defaults) (pyLower p.1) = some p.2 := by
          rw [hlow]
          exact alookup_append_some _ _ hmp
        exact cpGet_ok_of_chain (unify_of_lookup hlook) hchain hnp
      · have hpd : p ∈ st.defaults := (List.mem_filter.mp hp2).1
        have hcond : alookup q.2 p.1 = none :=
          of_decide_eq_true ((List.mem_filter.mp hp2).2)
        obtain ⟨hlow, hnp⟩ := hdefok p hpd
        have hdp : alookup st.defaults p.1 = some p.2 :=
          alookup_mem_nodup hdefnd (by simpa using hpd)
        have hchain : alookup (q.2 ++ st.defaults) (pyLower p.1) = some p.2 := by
          rw [hlow, alookup_append_none _ _ hcond]
          exact hdp
        exact cpGet_ok_of_chain (unify_of_lookup hlook) hchain hnp
  unfold Config.toDict
  rw [toDictLoop_eq st
      (fun q => q.2 ++ st.defaults.filter (fun p => alookup q.2 p.1 = none))
      st.sections [] (fun q _ => rfl) hsecnd hall]
  dsimp only
  rw [List.nil_append]

theorem config_get_fallback_noOption {st : ConfigState} {sec key : String}
    {chain : Assoc} (hu : unify st sec = .ok chain)
    (hl : alookup chain (pyLower key) = none) (fb : Option String) :
    Config.get st sec key fb = .ok fb := by
  unfold Config.get cpGet
  rw [hu]
  dsimp only
  rw [hl]

theorem cpRemoveOption_ok_of_hasOption {st : ConfigState} {sec k : String}
    (h : cpHasOption st sec k = .ok true) :
    ∃ p, cpRemoveOption st sec k = .ok p := by
  unfold cpHasOption at h
  unfold cpRemoveOption
  by_cases hs : sec = "" ∨ sec = DEFAULTSECT
  · rw [if_pos hs]
    exact ⟨_, rfl⟩
  · rw [if_neg hs] at h ⊢
    cases hl : alookup st.sections sec with
    | none =>
        rw [hl] at h
        simp at h
    | some m => exact ⟨_, rfl⟩

theorem set_ret_selfRef {st : ConfigState} {sec k v : String} {r : MutResult}
    (h : Config.set st sec k v = .ok r) : r.ret = PyRet.selfRef := by
  unfold Config.set at h
  split at h
  · exact absurd h (by simp)
  · simp only [Except.ok.injEq] at h
    rw [← h]

/-- Claim C1 as stated is false: `set` stores the raw value but `get` pipes it
through `BasicInterpolation`, so the value `a%%b` is stored verbatim yet read
back as `a%b`. -/
theorem C1_counterexample :
    Config.set emptyState "s" "k" "a%%b" =
      .ok { state := { defaults := [], sections := [("s", [("k", "a%%b")])] },
            events := [Event.settingChanged "s" "k" "a%%b"],
            ret := PyRet.selfRef } ∧
    Config.get { defaults := [], sections := [("s", [("k", "a%%b")])] } "s" "k" none
      = .ok (some "a%b") ∧
    ("a%b" : String) ≠ "a%%b" := by
  decide

/-- Claim C1, amended: for every well-formed store and every value containing
no percent character, `set(section, key, value)` succeeds (returning `self` and
firing `"setting_changed"`) and an immediate `get(section, key)` returns
exactly that value. -/
theorem C1_set_get_roundtrip (st : ConfigState) (sec k v : String)
    (fb : Option String) (hwf : wfBase st) (hv : noPercentStr v = true) :
    ∃ st2, Config.set st sec k v =
        .ok { state := st2, events := [Event.settingChanged sec k v],
              ret := PyRet.selfRef } ∧
      Config.get st2 sec k fb = .ok (some v) := by
  obtain ⟨st2, h1, h2, -⟩ := set_then_get st sec k k v fb hwf hv rfl
  exact ⟨st2, h1, h2⟩

/-- Witness for C1 at a concrete input. -/
theorem C1_witness :
    wfBase emptyState ∧ noPercentStr "val" = true ∧
    (∃ st2, Config.set emptyState "s" "k" "val" =
        .ok { state := st2, events := [Event.settingChanged "s" "k" "val"],
              ret := PyRet.selfRef } ∧
      Config.get st2 "s" "k" none = .ok (some "val")) :=
  ⟨by decide, by decide,
   C1_set_get_roundtrip emptyState "s" "k" "val" none (by decide) (by decide)⟩

/-- Claim C2 as stated is false: with `a=1` in the default section, the
snapshot of section `s` (holding only `b=2`) also contains the default key
`a`, which was never directly set in `s`. -/
theorem C2_counterexample :
    Config.toDict { defaults := [("a", "1")], sections := [("s", [("b", "2")])] } none
      = .ok (Config.ToDictRet.full [("s", [("b", "2"), ("a", "1")])]) ∧
    alookup ([("b", "2")] : Assoc) "a" = none := by
  decide

/-- Witness for C2 at a concrete input. -/
theorem C2_witness :
    wfStore { defaults := [("a", "1")], sections := [("s", [("b", "2")])] } ∧
    Config.toDict { defaults := [("a", "1")], sections := [("s", [("b", "2")])] } none
      = .ok (Config.ToDictRet.full [("s", [("b", "2"), ("a", "1")])]) :=
  ⟨by decide,
   (C2_toDict_merges_defaults
     { defaults := [("a", "1")], sections := [("s", [("b", "2")])] }
     (by decide)).trans (by decide)⟩

/-- Claim C3 as stated is false: when the section does not exist at all, the
key counts as absent from it, yet `get` returns the fallback even though the
key is present in the default section (`NoSectionError` is caught before the
default chain is ever consulted). -/
theorem C3_counterexample :
    Config.get { defaults := [("k", "v")], sections := [] } "missing" "k" (some "FB")
      = .ok (some "FB") ∧
    alookup ([("k", "v")] : Assoc) "k" = some "v" ∧
    (Except.ok (some "FB") : Except PyExc (Option String)) ≠ .ok (some "v") := by
  decide

/-- Claim C3, amended: for a section that exists, a key absent from it but
present in the default section is found there and returned (after
interpolation; stated for inert values) without consulting the fallback, and
the fallback is returned only when the key is in neither place. -/
theorem C3_default_fallback (st : ConfigState) (sec key : String) (m : Assoc)
    (hm : alookup st.sections sec = some m)
    (habs : alookup m (pyLower key) = none) :
    (∀ v, alookup st.defaults (pyLower key) = some v → noPercentStr v = true →
      ∀ fb, Config.get st sec key fb = .ok (some v)) ∧
    (alookup st.defaults (pyLower key) = none →
      ∀ fb, Config.get st sec key fb = .ok fb) := by
  constructor
  · intro v hd hv fb
    have hl : alookup (m ++ st.defaults) (pyLower key) = some v := by
      rw [alookup_append_none _ _ habs]
      exact hd
    exact config_get_of_cpGet (cpGet_ok_of_chain (unify_of_lookup hm) hl hv) fb
  · intro hd fb
    have hl : alookup (m ++ st.defaults) (pyLower key) = none := by
      rw [alookup_append_none _ _ habs]
      exact hd
    exact config_get_fallback_noOption (unify_of_lookup hm) hl fb

/-- Witness for C3 at a concrete input. -/
theorem C3_witness :
    alookup ({ defaults := [("k", "v")], sections := [("s", [])] } :
      ConfigState).sections "s" = some [] ∧
    alookup ([] : Assoc) (pyLower "k") = none ∧
    Config.get { defaults := [("k", "v")], sections := [("s", [])] } "s" "k" (some "FB")
      = .ok (some "v") :=
  ⟨by decide, by decide,
   (C3_default_fallback { defaults := [("k", "v")], sections := [("s", [])] }
     "s" "k" [] (by decide) (by decide)).1 "v" (by decide) (by decide) (some "FB")⟩

/-- Claim C4 as stated is false: with `k` present only in the default section,
`remove("s", "k")` returns true and fires `"setting_removed"` although the pair
`("s", "k")` was never directly set, and the store is unchanged even though the
call returned true. -/
theorem C4_counterexample :
    Config.remove { defaults := [("k", "v")], sections := [("s", [])] } "s" (some "k")
      = .ok (true, { defaults := [("k", "v")], sections := [("s", [])] },
             [Event.settingRemoved "s" (some "k")]) ∧
    alookup ([] : Assoc) "k" = none := by
  decide

/-- Claim C4, amended: `remove(section, key)` never raises; it returns true
exactly when `has_option` reports the key visible in the section (directly, or
through the default section), and whenever it returns false the store is
unchanged. -/
theorem C4_remove_flag (st : ConfigState) (sec k : String) :
    ∃ b st2 evs, Config.remove st sec (some k) = .ok (b, st2, evs) ∧
      (b = true ↔ cpHasOption st sec k = .ok true) ∧
      (b = false → st2 = st) := by
  cases hho : cpHasOption st sec k with
  | error e =>
      have hin : Config.removeInner st sec (some k) = .error e := by
        unfold Config.removeInner
        dsimp only
        rw [hho]
      refine ⟨false, st, [], ?_, ?_, fun _ => rfl⟩
      · unfold Config.remove
        rw [hin]
      · simp
  | ok b' =>
      cases b' with
      | false =>
          have hin : Config.removeInner st sec (some k) = .ok (false, st, []) := by
            unfold Config.removeInner
            dsimp only
            rw [hho]
          refine ⟨false, st, [], ?_, ?_, fun _ => rfl⟩
          · unfold Config.remove
            rw [hin]
          · simp
      | true =>
          obtain ⟨⟨pb, pst⟩, hro⟩ := cpRemoveOption_ok_of_hasOption hho
          have hin : Config.removeInner st sec (some k) =
              .ok (true, pst, [Event.settingRemoved sec (some k)]) := by
            unfold Config.removeInner
            dsimp only
            rw [hho]
            dsimp only
            rw [hro]
          refine ⟨true, pst, [Event.settingRemoved sec (some k)], ?_, ?_, ?_⟩
          · unfold Config.remove
            rw [hin]
          · simp
          · intro h
            exact absurd h (by simp)

/-- Claim C5: `remove` never raises — the `except` clauses convert every
exception escaping the `try` body into a `False` return, so the call always
produces a value. -/
theorem C5_remove_never_raises (st : ConfigState) (sec : String)
    (key : Option String) :
    ∃ r, Config.remove st sec key = .ok r := by
  unfold Config.remove
  cases h : Config.removeInner st sec key with
  | ok r => exact ⟨r, rfl⟩
  | error e => exact ⟨(false, st, []), rfl⟩

/-- Claim C6 as stated is false: `ConfigParser.read` silently skips a file
that cannot be opened, so `load` on an unreadable file returns normally with
the store unchanged instead of raising. -/
theorem C6_counterexample :
    Config.load emptyState Config.ReadOutcome.missing = .ok emptyState := by
  decide

/-- Claim C6, amended: `save` propagates every filesystem failure, and `load`
propagates parse errors, but an unreadable file is silently skipped by `load`
(store unchanged, no exception). -/
theorem C6_io_behavior (st : ConfigState) (e : PyExc) :
    Config.save st (Config.WriteOutcome.failure e) = .error e ∧
    Config.load st Config.ReadOutcome.missing = .ok st ∧
    Config.load st (Config.ReadOutcome.parseFail e) = .error e :=
  ⟨rfl, rfl, rfl⟩

/-- Claim C7 as stated is false: `set_default` mutates the store and fires the
same event as `set` on the default sentinel, but it has no `return` statement,
so it returns `None` while `set` returns `self` — the return values differ and
`set_default` is not chainable. -/
theorem C7_counterexample :
    Config.set_default emptyState "k" "v" =
      .ok { state := { defaults := [("k", "v")], sections := [] },
            events := [Event.settingChanged DEFAULTSECT "k" "v"],
            ret := PyRet.pyNone } ∧
    Config.set emptyState DEFAULTSECT "k" "v" =
      .ok { state := { defaults := [("k", "v")], sections := [] },
            events := [Event.settingChanged DEFAULTSECT "k" "v"],
            ret := PyRet.selfRef } ∧
    PyRet.pyNone ≠ PyRet.selfRef := by
  decide

/-- Claim C7, amended: `set_default(key, value)` produces exactly the store,
event trace and success/failure of `set(DEFAULTSECT, key, value)`, except that
it returns `None` where `set` returns `self`. -/
theorem C7_set_default_vs_set (st : ConfigState) (k v : String) :
    (∃ st2 evs, Config.set st DEFAULTSECT k v =
        .ok { state := st2, events := evs, ret := PyRet.selfRef } ∧
      Config.set_default st k v =
        .ok { state := st2, events := evs, ret := PyRet.pyNone }) ∨
    (∃ e, Config.set st DEFAULTSECT k v = .error e ∧
      Config.set_default st k v = .error e) := by
  cases h : Config.set st DEFAULTSECT k v with
  | error e =>
      right
      refine ⟨e, rfl, ?_⟩
      unfold Config.set_default
      rw [h]
  | ok r =>
      left
      obtain ⟨s2, evs, ret⟩ := r
      have hr : ret = PyRet.selfRef := set_ret_selfRef h
      subst hr
      refine ⟨s2, evs, rfl, ?_⟩
      unfold Config.set_default
      rw [h]

/-- Claim C8: on the code as written, reading an attribute whose name has no
separator raises `ValueError` from the tuple unpacking (the `split` sits
outside the `try`, so the `except ValueError: raise AttributeError` handler
that was clearly meant to catch it is dead code), while assignment does fall
through to normal attribute assignment as claimed. -/
theorem C8_evaluation :
    Config.getattrDyn emptyState "version" = .error PyExc.valueErr ∧
    PyExc.valueErr ≠ PyExc.attributeErr ∧
    Config.setattrDyn emptyState "version" "x"
      = Config.SetAttrRet.identityAssign "version" := by
  decide

/-- Claim C9 as stated is false: `optionxform` lowercases option keys, so
after `set("s", "Key", "v")` the stored key is `key` (not the given string),
and `get` with the differently-cased `KEY` does find the setting. -/
theorem C9_counterexample :
    Config.set emptyState "s" "Key" "v" =
      .ok { state := { defaults := [], sections := [("s", [("key", "v")])] },
            events := [Event.settingChanged "s" "Key" "v"],
            ret := PyRet.selfRef } ∧
    alookup ([("key", "v")] : Assoc) "Key" = none ∧
    Config.get { defaults := [], sections := [("s", [("key", "v")])] } "s" "KEY" none
      = .ok (some "v") := by
  decide

/-- Claim C9, amended: keys are case-insensitive — `set` stores the key
lowercased via `optionxform`, and `get` finds the setting under any casing
whose lowercase form agrees. -/
theorem C9_keys_lowercased (st : ConfigState) (sec k k' v : String)
    (fb : Option String) (hwf : wfBase st) (hsec1 : sec ≠ "")
    (hsec2 : sec ≠ DEFAULTSECT) (hv : noPercentStr v = true)
    (hk : pyLower k' = pyLower k) :
    ∃ st2 m2, Config.set st sec k v =
        .ok { state := st2, events := [Event.settingChanged sec k v],
              ret := PyRet.selfRef } ∧
      alookup st2.sections sec = some m2 ∧
      alookup m2 (pyLower k) = some v ∧
      Config.get st2 sec k' fb = .ok (some v) := by
  obtain ⟨st2, h1, h2, h3⟩ := set_then_get st sec k k' v fb hwf hv hk
  obtain ⟨m2, hm1, hm2⟩ := h3 ⟨hsec1, hsec2⟩
  exact ⟨st2, m2, h1, hm1, hm2, h2⟩

/-- Witness for C9 at a concrete input. -/
theorem C9_witness :
    wfBase emptyState ∧ pyLower "KEY" = pyLower "Key" ∧
    (∃ st2 m2, Config.set emptyState "s" "Key" "v" =
        .ok { state := st2, events := [Event.settingChanged "s" "Key" "v"],
              ret := PyRet.selfRef } ∧
      alookup st2.sections "s" = some m2 ∧
      alookup m2 (pyLower "Key") = some "v" ∧
      Config.get st2 "s" "KEY" none = .ok (some "v")) :=
  ⟨by decide, by decide,
   C9_keys_lowercased emptyState "s" "Key" "KEY" "v" none (by decide) (by decide)
     (by decide) (by decide) (by decide)⟩

/-- Claim C10: constructing with an `observable` that is neither `None` nor an
`Observable` instance raises `TypeError` first — before the identity fields
are assigned, before a parser state exists, and independently of the file (the
result is the same for every read outcome, so the file is never consulted). -/
theorem C10_invalid_observable (f : Config.ReadOutcome) :
    Config.init Config.ObsArg.invalid f = .error PyExc.typeErr :=
  rfl
